import Mathlib

/-!
Shallow embedding of the read-only SQL firewall and execution gateway of
the Harman-Internship-Project-1 repository (src/app.py for the Postgres
backend, src/sqlserv.py for the T-SQL backend), together with theorems
settling the frozen claims about it.

Strings are modelled over their character lists (`String.data`); Python
`str.upper` / `str.strip` are modelled on ASCII, which is exact for every
string the claims mention.
-/

namespace HarmanSql

/-- Characters stripped by Python `str.strip()` (ASCII whitespace). -/
def isPySpace (c : Char) : Bool :=
  c == ' ' || c == '\t' || c == '\n' || c == '\r' || c == '\x0b' || c == '\x0c'

/-- Model of Python `str.strip()`. -/
def pyStrip (s : String) : String :=
  String.mk (((s.data.dropWhile isPySpace).reverse.dropWhile isPySpace).reverse)

/-- Model of Python `str.upper()` (ASCII). -/
def pyUpper (s : String) : String :=
  String.mk (s.data.map Char.toUpper)

/-- Boolean test that `p` is a leading segment of `s`. -/
def takesLead : List Char → List Char → Bool
  | [], _ => true
  | _ :: _, [] => false
  | p :: ps, c :: cs => p == c && takesLead ps cs

/-- Boolean substring test: `hasSub n h` holds when `n` occurs contiguously in `h`.
Models the Python `in` operator on strings. -/
def hasSub (n : List Char) : List Char → Bool
  | [] => takesLead n []
  | c :: cs => takesLead n (c :: cs) || hasSub n cs

/-- Model of Python `needle in hay` for strings. -/
def pyInStr (needle hay : String) : Bool := hasSub needle.data hay.data

/-- Proposition that `needle` occurs as a contiguous substring of `hay`. -/
def SubstrOf (needle hay : String) : Prop :=
  ∃ pre post : List Char, hay.data = pre ++ needle.data ++ post

/-- Model of Python `hay.startswith(p)`. -/
def startsWithStr (hay p : String) : Bool := takesLead p.data hay.data

/-- Normalization performed by the validators: `query.strip().upper()`. -/
def pyNorm (query : String) : String := pyUpper (pyStrip query)

/-- Allowed statement openings, from the `startswith` tuple in both validators
(src/app.py line 48, src/sqlserv.py line 60). -/
def ALLOWED : List String := ["SELECT", "WITH", "SHOW", "EXPLAIN"]

/-- DANGEROUS_SQL of src/app.py lines 35-39 (a Python set; listed here in
declaration order). -/
def pgDangerous : List String :=
  ["DROP", "DELETE", "TRUNCATE", "ALTER", "UPDATE", "INSERT", "CREATE",
   "GRANT", "REVOKE", "VACUUM"]

/-- DANGEROUS_SQL of src/sqlserv.py lines 48-52 (a Python set; listed here in
declaration order). -/
def tsqlDangerous : List String :=
  ["DROP", "DELETE", "TRUNCATE", "ALTER", "UPDATE", "INSERT", "CREATE",
   "GRANT", "REVOKE", "BACKUP", "RESTORE"]

/-- MAX_ROWS constant of src/app.py line 41 and src/sqlserv.py line 54. -/
def MAX_ROWS : Nat := 1000

/-- Test that the normalized query starts with one of the allowed openings. -/
def startsAllowedB (q : String) : Bool :=
  ALLOWED.any fun p => startsWithStr q p

/-- Scan of the blocked-keyword loop (`for word in DANGEROUS_SQL: if word in q`),
returning the first raised message, if any. -/
def scanBlocked : List String → String → Option String
  | [], _ => none
  | w :: ws, q =>
    if pyInStr w q then some ("Blocked keyword: " ++ w) else scanBlocked ws q

/-- Embedding of validate_query (src/app.py lines 44-53 and src/sqlserv.py
lines 56-65; identical up to the keyword set). Returns `some message` when the
Python function raises `ValueError(message)`, `none` when it accepts. -/
def validate_query (dangerous : List String) (query : String) : Option String :=
  let q := pyNorm query
  if !startsAllowedB q then some "Only read-only queries allowed"
  else scanBlocked dangerous q

/-- Model of Python `query.rstrip(";")`: removes every trailing ';'. -/
def rstripSemi (query : String) : String :=
  String.mk ((query.data.reverse.dropWhile (fun c => c == ';')).reverse)

/-- Embedding of enforce_limit from src/app.py lines 56-61; the f-string
with MAX_ROWS = 1000 renders as " LIMIT 1000". -/
def pg_enforce_limit (query : String) : String :=
  if !(pyInStr "LIMIT" (pyUpper query)) then rstripSemi query ++ " LIMIT 1000"
  else query

/-- Model of Python `s.replace(pat, rep, 1)` on character lists: replaces the
first occurrence of `pat`, leaving the list unchanged when `pat` is absent. -/
def replaceFirstAux (pat rep : List Char) : List Char → List Char
  | [] => if pat == [] then rep else []
  | c :: cs =>
    if takesLead pat (c :: cs) then rep ++ (c :: cs).drop pat.length
    else c :: replaceFirstAux pat rep cs

/-- Embedding of enforce_limit from src/sqlserv.py lines 67-73; the f-string
with MAX_ROWS = 1000 renders as "SELECT TOP 1000". Note the presence check is
on the uppercased text while `str.replace` operates on the original text. -/
def tsql_enforce_limit (query : String) : String :=
  if !(pyInStr "TOP" (pyUpper query)) && pyInStr "SELECT" (pyUpper query) then
    String.mk (replaceFirstAux "SELECT".data "SELECT TOP 1000".data query.data)
  else query

/-- Word characters, for checking whether a keyword occurs as a whole token. -/
def isWordChar (c : Char) : Bool := c.isAlphanum || c == '_'

/-- Test that `q` begins with `p` as a whole word: `p` leads `q` and is followed
by a non-word character or the end of the string. -/
def startsWholeWord (q p : String) : Bool :=
  takesLead p.data q.data &&
    (match q.data.drop p.data.length with
     | [] => true
     | c :: _ => !isWordChar c)

/-- Characterization of `takesLead`: `p` leads `s` exactly when `s` extends `p`. -/
theorem takesLead_iff (p : List Char) :
    ∀ s : List Char, takesLead p s = true ↔ ∃ t, s = p ++ t := by
  induction p with
  | nil => intro s; simp [takesLead]
  | cons a ps ih =>
    intro s
    cases s with
    | nil =>
      simp [takesLead]
    | cons c cs =>
      simp only [takesLead, Bool.and_eq_true, beq_iff_eq, ih cs, List.cons_append,
        List.cons.injEq]
      constructor
      · rintro ⟨rfl, t, rfl⟩; exact ⟨t, rfl, rfl⟩
      · rintro ⟨t, rfl, rfl⟩; exact ⟨rfl, t, rfl⟩

/-- Characterization of `hasSub`: substring occurrence as a decomposition. -/
theorem hasSub_iff (n : List Char) :
    ∀ h : List Char, hasSub n h = true ↔ ∃ pre post, h = pre ++ n ++ post := by
  intro h
  induction h with
  | nil =>
    simp only [hasSub, takesLead_iff]
    constructor
    · rintro ⟨t, ht⟩
      exact ⟨[], t, by simpa using ht⟩
    · rintro ⟨pre, post, hp⟩
      rcases List.append_eq_nil.mp hp.symm with ⟨h1, hpost⟩
      rcases List.append_eq_nil.mp h1 with ⟨-, hn⟩
      exact ⟨post, by simp [hn, hpost]⟩
  | cons c cs ih =>
    simp only [hasSub, Bool.or_eq_true, takesLead_iff, ih]
    constructor
    · rintro (⟨t, ht⟩ | ⟨pre, post, hp⟩)
      · exact ⟨[], t, by simpa using ht⟩
      · exact ⟨c :: pre, post, by simp [hp]⟩
    · rintro ⟨pre, post, hp⟩
      cases pre with
      | nil => exact Or.inl ⟨post, by simpa using hp⟩
      | cons x xs =>
        rcases List.cons.injEq .. ▸ hp with ⟨-, h2⟩
        exact Or.inr ⟨xs, post, by simpa using h2⟩

/-- Occurrence in a list is preserved by prepending. -/
theorem hasSub_append_right {n h : List Char} (g : List Char)
    (hh : hasSub n h = true) : hasSub n (g ++ h) = true := by
  rcases (hasSub_iff n h).mp hh with ⟨pre, post, rfl⟩
  exact (hasSub_iff n _).mpr ⟨g ++ pre, post, by simp⟩

/-- Occurrence in a list is preserved by appending. -/
theorem hasSub_append_left {n h : List Char} (g : List Char)
    (hh : hasSub n h = true) : hasSub n (h ++ g) = true := by
  rcases (hasSub_iff n h).mp hh with ⟨pre, post, rfl⟩
  exact (hasSub_iff n _).mpr ⟨pre, post ++ g, by simp⟩

/-- Occurrence is preserved by mapping a function over both lists. -/
theorem hasSub_map (f : Char → Char) {n h : List Char}
    (hh : hasSub n h = true) : hasSub (n.map f) (h.map f) = true := by
  rcases (hasSub_iff n h).mp hh with ⟨pre, post, rfl⟩
  exact (hasSub_iff _ _).mpr ⟨pre.map f, post.map f, by simp⟩

/-- Bridge between the executable substring test and the occurrence proposition. -/
theorem pyInStr_iff (n h : String) : pyInStr n h = true ↔ SubstrOf n h :=
  hasSub_iff n.data h.data

/-- Keyword scan returns nothing exactly when no keyword occurs. -/
theorem scanBlocked_eq_none (ds : List String) (q : String) :
    scanBlocked ds q = none ↔ ∀ w ∈ ds, pyInStr w q = false := by
  induction ds with
  | nil => simp [scanBlocked]
  | cons w ws ih =>
    by_cases hw : pyInStr w q
    · simp [scanBlocked, hw]
    · simp only [Bool.not_eq_true] at hw
      simp [scanBlocked, hw, ih]

/-- Keyword scan reports a keyword that does occur, with the raised message. -/
theorem scanBlocked_eq_some (ds : List String) (q r : String)
    (h : scanBlocked ds q = some r) :
    ∃ w ∈ ds, pyInStr w q = true ∧ r = "Blocked keyword: " ++ w := by
  induction ds with
  | nil => simp [scanBlocked] at h
  | cons w ws ih =>
    by_cases hw : pyInStr w q
    · simp only [scanBlocked, hw, if_pos, Option.some.injEq] at h
      exact ⟨w, by simp, hw, h.symm⟩
    · simp only [Bool.not_eq_true] at hw
      simp only [scanBlocked, hw, Bool.false_eq_true, if_false] at h
      rcases ih h with ⟨w2, hmem, hin, hr⟩
      exact ⟨w2, by simp [hmem], hin, hr⟩

/-- Behavior of the validator split by the outcome of the opening check. -/
theorem validate_query_spec (ds : List String) (query : String) :
    (startsAllowedB (pyNorm query) = false →
      validate_query ds query = some "Only read-only queries allowed") ∧
    (startsAllowedB (pyNorm query) = true →
      (validate_query ds query = none ↔
        ∀ w ∈ ds, ¬ SubstrOf w (pyNorm query)) ∧
      (∀ r, validate_query ds query = some r →
        ∃ w ∈ ds, SubstrOf w (pyNorm query) ∧ r = "Blocked keyword: " ++ w)) := by
  constructor
  · intro h
    simp [validate_query, h]
  · intro h
    have hval : validate_query ds query = scanBlocked ds (pyNorm query) := by
      simp [validate_query, h]
    constructor
    · rw [hval, scanBlocked_eq_none]
      constructor
      · intro hall w hw
        have := hall w hw
        rw [← pyInStr_iff]
        simp [this]
      · intro hall w hw
        have := hall w hw
        rw [← pyInStr_iff] at this
        simpa using this
    · intro r hr
      rw [hval] at hr
      rcases scanBlocked_eq_some ds (pyNorm query) r hr with ⟨w, hmem, hin, hre⟩
      exact ⟨w, hmem, (pyInStr_iff _ _).mp hin, hre⟩

/-- Replacement is the identity when the pattern does not occur. -/
theorem replaceFirstAux_not_found (pat rep : List Char) :
    ∀ h : List Char, hasSub pat h = false → replaceFirstAux pat rep h = h := by
  intro h
  induction h with
  | nil =>
    intro hh
    cases pat with
    | nil => simp [hasSub, takesLead] at hh
    | cons p ps => simp [replaceFirstAux]
  | cons c cs ih =>
    intro hh
    simp only [hasSub, Bool.or_eq_false_iff] at hh
    simp [replaceFirstAux, hh.1, ih hh.2]

/-- Replacement rewrites exactly the leftmost occurrence of the pattern. -/
theorem replaceFirstAux_found (pat rep : List Char) (hne : pat ≠ []) :
    ∀ h : List Char, hasSub pat h = true →
    ∃ pre post : List Char,
      h = pre ++ pat ++ post ∧
      replaceFirstAux pat rep h = pre ++ rep ++ post ∧
      ∀ pre2 post2 : List Char,
        h = pre2 ++ pat ++ post2 → pre.length ≤ pre2.length := by
  intro h
  induction h with
  | nil =>
    intro hh
    cases pat with
    | nil => exact absurd rfl hne
    | cons p ps => simp [hasSub, takesLead] at hh
  | cons c cs ih =>
    intro hh
    by_cases hl : takesLead pat (c :: cs) = true
    · rcases (takesLead_iff pat (c :: cs)).mp hl with ⟨t, ht⟩
      refine ⟨[], t, by simpa using ht, ?_, fun pre2 post2 _ => by simp⟩
      simp only [replaceFirstAux, hl, if_pos, List.nil_append]
      rw [ht, List.drop_left]
    · have hcs : hasSub pat cs = true := by
        simp only [hasSub, Bool.or_eq_true] at hh
        exact hh.resolve_left hl
      rcases ih hcs with ⟨pre, post, hdec, hrep, hmin⟩
      refine ⟨c :: pre, post, by simp [hdec], ?_, ?_⟩
      · simp only [replaceFirstAux, hl, Bool.false_eq_true, if_false, hrep]
        simp
      · intro pre2 post2 h2
        cases pre2 with
        | nil =>
          exact absurd ((takesLead_iff pat (c :: cs)).mpr
            ⟨post2, by simpa using h2⟩) hl
        | cons x xs =>
          have h2' : cs = xs ++ pat ++ post2 := by
            have := congrArg List.tail h2
            simpa using this
          simpa using Nat.succ_le_succ (hmin xs post2 h2')

/-- Trailing-semicolon strip: decomposition of the input and shape of output. -/
theorem rstripSemi_spec (query : String) :
    ∃ core : List Char, ∃ k : Nat,
      query.data = core ++ List.replicate k ';' ∧
      (∀ c, core.getLast? = some c → c ≠ ';') ∧
      (rstripSemi query).data = core := by
  refine ⟨(query.data.reverse.dropWhile (fun c => c == ';')).reverse,
          (query.data.reverse.takeWhile (fun c => c == ';')).length, ?_, ?_, rfl⟩
  · have htd : (query.data.reverse.takeWhile (fun c => c == ';')) ++
        (query.data.reverse.dropWhile (fun c => c == ';')) = query.data.reverse :=
      List.takeWhile_append_dropWhile _ _
    have hrep : query.data.reverse.takeWhile (fun c => c == ';') =
        List.replicate (query.data.reverse.takeWhile (fun c => c == ';')).length ';' := by
      rw [List.eq_replicate_iff]
      refine ⟨rfl, fun b hb => ?_⟩
      have := List.mem_takeWhile_imp hb
      simpa using this
    calc query.data = query.data.reverse.reverse := (List.reverse_reverse _).symm
      _ = ((query.data.reverse.takeWhile (fun c => c == ';')) ++
            (query.data.reverse.dropWhile (fun c => c == ';'))).reverse := by rw [htd]
      _ = (query.data.reverse.dropWhile (fun c => c == ';')).reverse ++
            (query.data.reverse.takeWhile (fun c => c == ';')).reverse := by
            rw [List.reverse_append]
      _ = _ := by
            rw [hrep, List.reverse_replicate]
            simp
  · intro c hc
    have hh : (query.data.reverse.dropWhile (fun c => c == ';')).head? = some c := by
      rw [← List.getLast?_reverse]
      exact hc
    have : ∀ (l : List Char) (c : Char),
        (l.dropWhile (fun c => c == ';')).head? = some c → (c == ';') = false := by
      intro l
      induction l with
      | nil => intro c hc2; simp [List.dropWhile] at hc2
      | cons a as ih2 =>
        intro c hc2
        by_cases ha : (a == ';') = true
        · rw [List.dropWhile_cons, if_pos ha] at hc2
          exact ih2 c hc2
        · rw [List.dropWhile_cons, if_neg (by simpa using ha)] at hc2
          simp only [List.head?_cons, Option.some.injEq] at hc2
          simpa [← hc2] using ha
    have := this _ c hh
    simpa using this

/-- Suffix normalizer is the identity once LIMIT occurs case-insensitively. -/
theorem pg_unchanged_of_limit (p : String)
    (h : pyInStr "LIMIT" (pyUpper p) = true) : pg_enforce_limit p = p := by
  simp [pg_enforce_limit, h]

/-- Prefix normalizer is the identity once TOP occurs case-insensitively. -/
theorem tsql_unchanged_of_top (p : String)
    (h : pyInStr "TOP" (pyUpper p) = true) : tsql_enforce_limit p = p := by
  simp [tsql_enforce_limit, h]

/-- Applying the Postgres suffix normalizer twice equals applying it once. -/
theorem pg_enforce_limit_idem (q : String) :
    pg_enforce_limit (pg_enforce_limit q) = pg_enforce_limit q := by
  by_cases h : pyInStr "LIMIT" (pyUpper q) = true
  · rw [pg_unchanged_of_limit q h]
    exact pg_unchanged_of_limit q h
  · have h' : pyInStr "LIMIT" (pyUpper q) = false := by simpa using h
    have hfq : pg_enforce_limit q = rstripSemi q ++ " LIMIT 1000" := by
      simp [pg_enforce_limit, h']
    have hlim : pyInStr "LIMIT" (pyUpper (pg_enforce_limit q)) = true := by
      rw [hfq]
      show hasSub ("LIMIT" : String).data
        (((rstripSemi q ++ " LIMIT 1000" : String)).data.map Char.toUpper) = true
      rw [show ((rstripSemi q ++ " LIMIT 1000" : String)).data =
            (rstripSemi q).data ++ (" LIMIT 1000" : String).data from rfl,
          List.map_append]
      exact hasSub_append_right _ (by decide)
    exact pg_unchanged_of_limit _ hlim

/-- Applying the T-SQL prefix normalizer twice equals applying it once. -/
theorem tsql_enforce_limit_idem (q : String) :
    tsql_enforce_limit (tsql_enforce_limit q) = tsql_enforce_limit q := by
  by_cases hg : (!(pyInStr "TOP" (pyUpper q)) && pyInStr "SELECT" (pyUpper q)) = true
  · by_cases hs : hasSub ("SELECT" : String).data q.data = true
    · have hfq : (tsql_enforce_limit q).data =
          replaceFirstAux ("SELECT" : String).data
            ("SELECT TOP 1000" : String).data q.data := by
        simp [tsql_enforce_limit, hg]
      rcases replaceFirstAux_found ("SELECT" : String).data
          ("SELECT TOP 1000" : String).data (by decide) q.data hs
        with ⟨pre, post, hdec, hrep, hmin⟩
      have htop : pyInStr "TOP" (pyUpper (tsql_enforce_limit q)) = true := by
        show hasSub ("TOP" : String).data
          ((tsql_enforce_limit q).data.map Char.toUpper) = true
        rw [hfq, hrep, List.map_append, List.map_append, List.append_assoc]
        exact hasSub_append_right _ (hasSub_append_left _ (by decide))
      exact tsql_unchanged_of_top _ htop
    · have hs' : hasSub ("SELECT" : String).data q.data = false := by simpa using hs
      have hfq : tsql_enforce_limit q = q := by
        simp only [tsql_enforce_limit, hg, if_true]
        rw [replaceFirstAux_not_found _ _ _ hs']
      rw [hfq]
      exact hfq
  · have hfq : tsql_enforce_limit q = q := by
      simp [tsql_enforce_limit, hg]
    rw [hfq]
    exact hfq

/-- Acceptance is equivalent to absence of every blocked keyword, once the
opening check passes. -/
theorem validate_isSome_iff (ds : List String) (query : String)
    (h : startsAllowedB (pyNorm query) = true) :
    (validate_query ds query).isSome = true ↔
      ∃ w ∈ ds, SubstrOf w (pyNorm query) := by
  have hnone := ((validate_query_spec ds query).2 h).1
  rw [Option.isSome_iff_ne_none]
  constructor
  · intro hne
    by_contra hcon
    push_neg at hcon
    exact hne (hnone.mpr fun w hw => hcon w hw)
  · rintro ⟨w, hw, hsub⟩ hne
    exact (hnone.mp hne w hw) hsub

/-- Any text containing a blocked keyword in its normalized form is rejected,
whether or not the opening check passes. -/
theorem validate_isSome_of_sub (ds : List String) (query : String)
    (hex : ∃ w ∈ ds, SubstrOf w (pyNorm query)) :
    (validate_query ds query).isSome = true := by
  by_cases h : startsAllowedB (pyNorm query) = true
  · exact (validate_isSome_iff ds query h).mpr hex
  · have h' : startsAllowedB (pyNorm query) = false := by simpa using h
    rw [(validate_query_spec ds query).1 h']
    rfl

/-- C1: the validator uppercases and trims the text, rejects unless the result
starts with one of SELECT, WITH, SHOW, EXPLAIN, and otherwise rejects exactly
when some profile blocked keyword occurs as a substring of the normalized text,
reporting an occurring keyword; in particular every text whose normalized form
contains a blocked keyword substring anywhere is rejected. -/
theorem validator_substring_policy (query : String) :
    (startsAllowedB (pyNorm query) = false →
        validate_query pgDangerous query = some "Only read-only queries allowed" ∧
        validate_query tsqlDangerous query = some "Only read-only queries allowed") ∧
    (startsAllowedB (pyNorm query) = true →
        ((validate_query pgDangerous query).isSome = true ↔
            ∃ w ∈ pgDangerous, SubstrOf w (pyNorm query)) ∧
        ((validate_query tsqlDangerous query).isSome = true ↔
            ∃ w ∈ tsqlDangerous, SubstrOf w (pyNorm query)) ∧
        (∀ r, validate_query pgDangerous query = some r →
            ∃ w ∈ pgDangerous, SubstrOf w (pyNorm query) ∧
              r = "Blocked keyword: " ++ w) ∧
        (∀ r, validate_query tsqlDangerous query = some r →
            ∃ w ∈ tsqlDangerous, SubstrOf w (pyNorm query) ∧
              r = "Blocked keyword: " ++ w)) ∧
    ((∃ w ∈ pgDangerous, SubstrOf w (pyNorm query)) →
        (validate_query pgDangerous query).isSome = true) ∧
    ((∃ w ∈ tsqlDangerous, SubstrOf w (pyNorm query)) →
        (validate_query tsqlDangerous query).isSome = true) := by
  refine ⟨fun h => ⟨(validate_query_spec pgDangerous query).1 h,
                   (validate_query_spec tsqlDangerous query).1 h⟩,
          fun h => ⟨validate_isSome_iff pgDangerous query h,
                    validate_isSome_iff tsqlDangerous query h,
                    ((validate_query_spec pgDangerous query).2 h).2,
                    ((validate_query_spec tsqlDangerous query).2 h).2⟩,
          validate_isSome_of_sub pgDangerous query,
          validate_isSome_of_sub tsqlDangerous query⟩

/-- Witness for the validator policy theorem at concrete inputs: a text failing
the opening check is rejected with the fixed message, and a text containing
UPDATE inside an identifier is rejected. -/
theorem validator_substring_policy_witness :
    validate_query pgDangerous "delete from t" =
      some "Only read-only queries allowed" ∧
    (validate_query pgDangerous "SELECT x FROM updated_at").isSome = true := by
  constructor
  · exact ((validator_substring_policy "delete from t").1 (by decide)).1
  · exact (validator_substring_policy "SELECT x FROM updated_at").2.2.1
      ⟨"UPDATE", by decide,
       (pyInStr_iff "UPDATE" (pyNorm "SELECT x FROM updated_at")).mp (by decide)⟩

/-- C3 counterexample: the text "select name from employees" is accepted by the
T-SQL validator, contains no case-insensitive TOP and a case-insensitive
SELECT, yet the normalizer returns it unchanged — the claimed case-insensitive
replacement does not happen because `str.replace` is case-sensitive. -/
theorem tsql_prefix_rewrite_counterexample :
    validate_query tsqlDangerous "select name from employees" = none ∧
    pyInStr "TOP" (pyUpper "select name from employees") = false ∧
    pyInStr "SELECT" (pyUpper "select name from employees") = true ∧
    tsql_enforce_limit "select name from employees" =
      "select name from employees" := by
  refine ⟨by decide, by decide, by decide, by decide⟩

/-- C3 (amended): under the T-SQL prefix strategy, when the text contains no
case-insensitive TOP, the normalizer replaces the first occurrence of the
literal uppercase string "SELECT" with "SELECT TOP 1000"; when the literal
uppercase "SELECT" is absent (even if present in other casing) or a
case-insensitive TOP is present, the text is returned unchanged; the input
"SELECT name FROM employees" is rewritten to
"SELECT TOP 1000 name FROM employees". -/
theorem tsql_prefix_rewrite (query : String) :
    (pyInStr "TOP" (pyUpper query) = false →
      hasSub ("SELECT" : String).data query.data = true →
      ∃ pre post : List Char,
        query.data = pre ++ ("SELECT" : String).data ++ post ∧
        (∀ pre2 post2,
          query.data = pre2 ++ ("SELECT" : String).data ++ post2 →
          pre.length ≤ pre2.length) ∧
        (tsql_enforce_limit query).data =
          pre ++ ("SELECT TOP 1000" : String).data ++ post) ∧
    (hasSub ("SELECT" : String).data query.data = false →
      tsql_enforce_limit query = query) ∧
    (pyInStr "TOP" (pyUpper query) = true → tsql_enforce_limit query = query) ∧
    tsql_enforce_limit "SELECT name FROM employees" =
      "SELECT TOP 1000 name FROM employees" := by
  refine ⟨?_, ?_, ?_, by decide⟩
  · intro hTop hs
    have hsel : pyInStr "SELECT" (pyUpper query) = true := by
      show hasSub ("SELECT" : String).data (query.data.map Char.toUpper) = true
      have := hasSub_map Char.toUpper hs
      rwa [show ("SELECT" : String).data.map Char.toUpper =
            ("SELECT" : String).data from by decide] at this
    have hfq : (tsql_enforce_limit query).data =
        replaceFirstAux ("SELECT" : String).data
          ("SELECT TOP 1000" : String).data query.data := by
      simp [tsql_enforce_limit, hTop, hsel]
    rcases replaceFirstAux_found ("SELECT" : String).data
        ("SELECT TOP 1000" : String).data (by decide) query.data hs
      with ⟨pre, post, hdec, hrep, hmin⟩
    exact ⟨pre, post, hdec, hmin, by rw [hfq, hrep]⟩
  · intro hs
    have hs' : hasSub ("SELECT" : String).data query.data = false := hs
    by_cases hg : (!(pyInStr "TOP" (pyUpper query)) &&
        pyInStr "SELECT" (pyUpper query)) = true
    · simp only [tsql_enforce_limit, hg, if_true]
      rw [replaceFirstAux_not_found _ _ _ hs']
    · simp [tsql_enforce_limit, hg]
  · intro hTop
    simp [tsql_enforce_limit, hTop]

/-- Witness for the amended T-SQL rewrite theorem at the spec's example input. -/
theorem tsql_prefix_rewrite_witness :
    ∃ pre post : List Char,
      ("SELECT name FROM employees" : String).data =
        pre ++ ("SELECT" : String).data ++ post ∧
      (∀ pre2 post2,
        ("SELECT name FROM employees" : String).data =
          pre2 ++ ("SELECT" : String).data ++ post2 →
        pre.length ≤ pre2.length) ∧
      (tsql_enforce_limit "SELECT name FROM employees").data =
        pre ++ ("SELECT TOP 1000" : String).data ++ post :=
  (tsql_prefix_rewrite "SELECT name FROM employees").1 (by decide) (by decide)

/-- C4 counterexample: on "SELECT 1;;" the suffix normalizer strips both
trailing semicolons, not a single one, so the output differs from the output
the claim prescribes. -/
theorem pg_suffix_rewrite_counterexample :
    validate_query pgDangerous "SELECT 1;;" = none ∧
    pyInStr "LIMIT" (pyUpper "SELECT 1;;") = false ∧
    pg_enforce_limit "SELECT 1;;" = "SELECT 1 LIMIT 1000" ∧
    pg_enforce_limit "SELECT 1;;" ≠ "SELECT 1; LIMIT 1000" := by
  refine ⟨by decide, by decide, by decide, by decide⟩

/-- C4 (amended): under the Postgres suffix strategy, when the text contains no
case-insensitive LIMIT, the normalizer strips all trailing ';' characters and
appends " LIMIT 1000"; otherwise it returns the text unchanged; the input
"SELECT name FROM employees" becomes "SELECT name FROM employees LIMIT 1000". -/
theorem pg_suffix_rewrite (query : String) :
    (pyInStr "LIMIT" (pyUpper query) = false →
      ∃ core : List Char, ∃ k : Nat,
        query.data = core ++ List.replicate k ';' ∧
        (∀ c, core.getLast? = some c → c ≠ ';') ∧
        (pg_enforce_limit query).data = core ++ (" LIMIT 1000" : String).data) ∧
    (pyInStr "LIMIT" (pyUpper query) = true → pg_enforce_limit query = query) ∧
    pg_enforce_limit "SELECT name FROM employees" =
      "SELECT name FROM employees LIMIT 1000" := by
  refine ⟨?_, ?_, by decide⟩
  · intro h
    rcases rstripSemi_spec query with ⟨core, k, hdec, hlast, hdata⟩
    refine ⟨core, k, hdec, hlast, ?_⟩
    have hfq : pg_enforce_limit query = rstripSemi query ++ " LIMIT 1000" := by
      simp [pg_enforce_limit, h]
    rw [hfq]
    show (rstripSemi query).data ++ (" LIMIT 1000" : String).data =
      core ++ (" LIMIT 1000" : String).data
    rw [hdata]
  · intro h
    simp [pg_enforce_limit, h]

/-- Witness for the amended Postgres rewrite theorem at the spec's example. -/
theorem pg_suffix_rewrite_witness :
    ∃ core : List Char, ∃ k : Nat,
      ("SELECT name FROM employees" : String).data =
        core ++ List.replicate k ';' ∧
      (∀ c, core.getLast? = some c → c ≠ ';') ∧
      (pg_enforce_limit "SELECT name FROM employees").data =
        core ++ (" LIMIT 1000" : String).data :=
  (pg_suffix_rewrite "SELECT name FROM employees").1 (by decide)

/-- C7 counterexample: "DROP TABLE users;" is rejected by the opening check,
whose message "Only read-only queries allowed" does not contain DROP, so the
rejection reason does not include the keyword. -/
theorem drop_example_counterexample :
    validate_query pgDangerous "DROP TABLE users;" =
      some "Only read-only queries allowed" ∧
    validate_query tsqlDangerous "DROP TABLE users;" =
      some "Only read-only queries allowed" ∧
    pyInStr "DROP" "Only read-only queries allowed" = false := by
  refine ⟨by decide, by decide, by decide⟩

/-- C7 (amended): for the input "DROP TABLE users;" both validators reject the
query, with the opening-check reason "Only read-only queries allowed"; the
keyword scan is never reached, so the reason does not mention DROP. -/
theorem drop_example_rejected :
    validate_query pgDangerous "DROP TABLE users;" =
      some "Only read-only queries allowed" ∧
    validate_query tsqlDangerous "DROP TABLE users;" =
      some "Only read-only queries allowed" := by
  refine ⟨by decide, by decide⟩

/-- C8 counterexample: there is no text on which a second application of the
T-SQL prefix normalizer changes the result, refuting the claimed
non-idempotence. -/
theorem tsql_not_idempotent_refuted :
    ¬ ∃ q : String,
      tsql_enforce_limit (tsql_enforce_limit q) ≠ tsql_enforce_limit q :=
  fun ⟨q, hq⟩ => hq (tsql_enforce_limit_idem q)

/-- C8 (amended): both normalizers are idempotent — for every text the Postgres
suffix normalizer and the T-SQL prefix normalizer applied twice equal one
application — and the first application on "SELECT * FROM t" yields
"SELECT TOP 1000 * FROM t". -/
theorem normalizers_idempotent (q : String) :
    pg_enforce_limit (pg_enforce_limit q) = pg_enforce_limit q ∧
    tsql_enforce_limit (tsql_enforce_limit q) = tsql_enforce_limit q ∧
    tsql_enforce_limit "SELECT * FROM t" = "SELECT TOP 1000 * FROM t" :=
  ⟨pg_enforce_limit_idem q, tsql_enforce_limit_idem q, by decide⟩

/-- Witness for the idempotence theorem at a concrete text. -/
theorem normalizers_idempotent_witness :
    pg_enforce_limit (pg_enforce_limit "SELECT 1;") =
      pg_enforce_limit "SELECT 1;" :=
  (normalizers_idempotent "SELECT 1;").1

/-- C9: the opening check matches raw character leads, not whole tokens — the
text "SELECTEDCOLS FROM T" begins with no allowed keyword as a whole word
(its normalized form begins with the characters SELECTED), yet both validators
accept it since no blocked keyword occurs. -/
theorem raw_lead_allowed_check :
    validate_query pgDangerous "SELECTEDCOLS FROM T" = none ∧
    validate_query tsqlDangerous "SELECTEDCOLS FROM T" = none ∧
    startsWithStr (pyNorm "SELECTEDCOLS FROM T") "SELECTED" = true ∧
    (ALLOWED.all fun p =>
      !(startsWholeWord (pyNorm "SELECTEDCOLS FROM T") p)) = true := by
  refine ⟨by decide, by decide, by decide, by decide⟩

/-- Observable driver-level actions taken by execute_query, in order. -/
inductive Event where
  | connect
  | exec (stmt : String)
  | fetchAll
  | closeCur
  | closeConn
deriving DecidableEq

/-- Oracles standing for the database driver: each `Option String` is `none`
on success and `some message` when the corresponding call raises with that
message; `fetchCols` and `fetchRows` are the cursor metadata and the fetched
rows, with cell values modelled by their rendered text on the success path and
`renderFail` standing for `str(dict(zip(cols, row)))` raising during row
rendering (an unsupported or malformed column value whose conversion fails). -/
structure Env where
  connectFail : Option String
  execFail : String → Option String
  fetchFail : Option String
  fetchCols : List String
  fetchRows : List (List String)
  renderFail : Option String

/-- Insertion into a Python dict built by `dict(zip(cols, row))`: a repeated
key keeps its first position and takes the latest value. -/
def pyDictInsert (k v : String) : List (String × String) → List (String × String)
  | [] => [(k, v)]
  | (k0, v0) :: rest =>
    if k0 == k then (k0, v) :: rest else (k0, v0) :: pyDictInsert k v rest

/-- Model of Python `dict(zip(cols, row))` as an ordered association list. -/
def pyDictOfZip (cols row : List String) : List (String × String) :=
  (cols.zip row).foldl (fun d p => pyDictInsert p.1 p.2 d) []

/-- Model of Python `str` on a dict of strings. -/
def pyStrOfDict (d : List (String × String)) : String :=
  "\x7b" ++
    String.intercalate ", " (d.map fun p => "'" ++ p.1 ++ "': '" ++ p.2 ++ "'") ++
  "\x7d"

/-- Rendering of the fetched rows: `"\n".join(str(dict(zip(cols, r))) ...)`. -/
def renderRows (cols : List String) (rows : List (List String)) : String :=
  String.intercalate "\n" (rows.map fun r => pyStrOfDict (pyDictOfZip cols r))

/-- Embedding of execute_query (src/app.py lines 225-267 and src/sqlserv.py
lines 269-309; identical up to keyword set, limiter and timeout statement).
Returns the string handed back to the caller together with the ordered trace
of driver actions; the `finally` block closes cursor and connection exactly
when they were bound. -/
def executeQuery (dangerous : List String) (limiter : String → String)
    (timeoutStmt : String) (env : Env) (query : String) :
    String × List Event :=
  match validate_query dangerous query with
  | some reason => ("Blocked: " ++ reason, [])
  | none =>
    let q := limiter query
    match env.connectFail with
    | some e => ("Internal error: " ++ e, [])
    | none =>
      match env.execFail timeoutStmt with
      | some e =>
          ("Internal error: " ++ e,
           [Event.connect, Event.exec timeoutStmt,
            Event.closeCur, Event.closeConn])
      | none =>
        match env.execFail q with
        | some e =>
            ("Internal error: " ++ e,
             [Event.connect, Event.exec timeoutStmt, Event.exec q,
              Event.closeCur, Event.closeConn])
        | none =>
          match env.fetchFail with
          | some e =>
              ("Internal error: " ++ e,
               [Event.connect, Event.exec timeoutStmt, Event.exec q,
                Event.fetchAll, Event.closeCur, Event.closeConn])
          | none =>
            let tr := [Event.connect, Event.exec timeoutStmt, Event.exec q,
                       Event.fetchAll, Event.closeCur, Event.closeConn]
            if env.fetchRows.isEmpty then ("No results", tr)
            else
              match env.renderFail with
              | some e => ("Internal error: " ++ e, tr)
              | none => (renderRows env.fetchCols env.fetchRows, tr)

/-- Timeout statement issued by the Postgres gateway (src/app.py line 235). -/
def pgTimeoutStmt : String := "SET statement_timeout = 3000"

/-- Timeout statement issued by the T-SQL gateway (src/sqlserv.py line 279). -/
def tsqlTimeoutStmt : String := "SET LOCK_TIMEOUT 30000"

/-- The execute_query tool of src/app.py. -/
def pg_execute_query (env : Env) (query : String) : String × List Event :=
  executeQuery pgDangerous pg_enforce_limit pgTimeoutStmt env query

/-- The execute_query tool of src/sqlserv.py. -/
def tsql_execute_query (env : Env) (query : String) : String × List Event :=
  executeQuery tsqlDangerous tsql_enforce_limit tsqlTimeoutStmt env query

/-- Environment in which every driver call succeeds and one row is returned. -/
def env0 : Env :=
  ⟨none, fun _ => none, none, ["name"], [["Alice"]], none⟩

/-- Environment in which opening a connection fails. -/
def envConnFail : Env :=
  ⟨some "connection refused", fun _ => none, none, [], [], none⟩

/-- Environment in which a fetched row fails to render. -/
def envRenderFail : Env :=
  ⟨none, fun _ => none, none, ["name"], [["Alice"]],
   some "unrepresentable value"⟩

/-- Leading segments survive appending a tail. -/
theorem takesLead_append_self (p t : List Char) : takesLead p (p ++ t) = true :=
  (takesLead_iff p (p ++ t)).mpr ⟨t, rfl⟩

/-- A concatenation starts with its first component. -/
theorem startsWithStr_append_self (p r : String) :
    startsWithStr (p ++ r) p = true := by
  show takesLead p.data ((p ++ r : String)).data = true
  rw [show ((p ++ r : String)).data = p.data ++ r.data from rfl]
  exact takesLead_append_self _ _

/-- The gateway short-circuits on a validation rejection: fixed message, empty
trace. -/
theorem executeQuery_rejected (ds : List String) (limiter : String → String)
    (tstmt : String) (env : Env) (query r : String)
    (h : validate_query ds query = some r) :
    executeQuery ds limiter tstmt env query = ("Blocked: " ++ r, []) := by
  simp [executeQuery, h]

/-- C2: on the execute_query path the validator runs before any connection is
acquired and any statement is executed — whenever validation rejects, the
trace records no connection and no executed statement, on either backend. -/
theorem rejected_no_connection (env : Env) (query : String) :
    ((validate_query pgDangerous query).isSome = true →
        Event.connect ∉ (pg_execute_query env query).2 ∧
        ∀ s, Event.exec s ∉ (pg_execute_query env query).2) ∧
    ((validate_query tsqlDangerous query).isSome = true →
        Event.connect ∉ (tsql_execute_query env query).2 ∧
        ∀ s, Event.exec s ∉ (tsql_execute_query env query).2) := by
  constructor
  · intro h
    rcases Option.isSome_iff_exists.mp h with ⟨r, hr⟩
    rw [pg_execute_query, executeQuery_rejected _ _ _ _ _ _ hr]
    exact ⟨by simp, fun s => by simp⟩
  · intro h
    rcases Option.isSome_iff_exists.mp h with ⟨r, hr⟩
    rw [tsql_execute_query, executeQuery_rejected _ _ _ _ _ _ hr]
    exact ⟨by simp, fun s => by simp⟩

/-- Witness for the rejection-trace theorem at concrete rejected inputs. -/
theorem rejected_no_connection_witness :
    Event.connect ∉ (pg_execute_query env0 "DROP TABLE users;").2 ∧
    Event.connect ∉ (tsql_execute_query env0 "BACKUP DATABASE x").2 :=
  ⟨((rejected_no_connection env0 "DROP TABLE users;").1 (by decide)).1,
   ((rejected_no_connection env0 "BACKUP DATABASE x").2 (by decide)).1⟩

/-- Result-prefix discipline of the gateway, generic in the dialect data. -/
theorem executeQuery_prefixes (ds : List String) (limiter : String → String)
    (tstmt : String) (env : Env) (query : String) :
    ((validate_query ds query).isSome = true →
      startsWithStr (executeQuery ds limiter tstmt env query).1
        "Blocked: " = true) ∧
    (validate_query ds query = none →
      (env.connectFail.isSome = true ∨ (env.execFail tstmt).isSome = true ∨
       (env.execFail (limiter query)).isSome = true ∨
       env.fetchFail.isSome = true ∨
       (env.fetchRows.isEmpty = false ∧ env.renderFail.isSome = true)) →
      startsWithStr (executeQuery ds limiter tstmt env query).1
        "Internal error: " = true) := by
  constructor
  · intro h
    rcases Option.isSome_iff_exists.mp h with ⟨r, hr⟩
    rw [executeQuery_rejected ds limiter tstmt env query r hr]
    exact startsWithStr_append_self _ _
  · intro hv hfail
    cases hc : env.connectFail with
    | some e =>
      have : (executeQuery ds limiter tstmt env query).1 =
          "Internal error: " ++ e := by
        simp [executeQuery, hv, hc]
      rw [this]
      exact startsWithStr_append_self _ _
    | none =>
      cases ht : env.execFail tstmt with
      | some e =>
        have : (executeQuery ds limiter tstmt env query).1 =
            "Internal error: " ++ e := by
          simp [executeQuery, hv, hc, ht]
        rw [this]
        exact startsWithStr_append_self _ _
      | none =>
        cases hq : env.execFail (limiter query) with
        | some e =>
          have : (executeQuery ds limiter tstmt env query).1 =
              "Internal error: " ++ e := by
            simp [executeQuery, hv, hc, ht, hq]
          rw [this]
          exact startsWithStr_append_self _ _
        | none =>
          cases hf : env.fetchFail with
          | some e =>
            have : (executeQuery ds limiter tstmt env query).1 =
                "Internal error: " ++ e := by
              simp [executeQuery, hv, hc, ht, hq, hf]
            rw [this]
            exact startsWithStr_append_self _ _
          | none =>
            by_cases hrows : env.fetchRows.isEmpty = true
            · rcases hfail with h1 | h2 | h3 | h4 | h5 <;> simp_all
            · cases hr : env.renderFail with
              | some e =>
                have : (executeQuery ds limiter tstmt env query).1 =
                    "Internal error: " ++ e := by
                  simp [executeQuery, hv, hc, ht, hq, hf, hrows, hr]
                rw [this]
                exact startsWithStr_append_self _ _
              | none =>
                rcases hfail with h1 | h2 | h3 | h4 | h5 <;> simp_all

/-- C5: execute_query is a total function returning a string; every validation
rejection produces a message beginning with "Blocked: " and every other
failure inside the operation — connection, timeout statement, query execution,
fetch, or row formatting (a fetched row that fails to render, reachable
exactly when the row set is non-empty, since the sources return "No results"
before rendering) — produces a message beginning with "Internal error: ", on
either backend. -/
theorem execute_query_error_prefixes (env : Env) (query : String) :
    ((validate_query pgDangerous query).isSome = true →
      startsWithStr (pg_execute_query env query).1 "Blocked: " = true) ∧
    (validate_query pgDangerous query = none →
      (env.connectFail.isSome = true ∨
       (env.execFail pgTimeoutStmt).isSome = true ∨
       (env.execFail (pg_enforce_limit query)).isSome = true ∨
       env.fetchFail.isSome = true ∨
       (env.fetchRows.isEmpty = false ∧ env.renderFail.isSome = true)) →
      startsWithStr (pg_execute_query env query).1 "Internal error: " = true) ∧
    ((validate_query tsqlDangerous query).isSome = true →
      startsWithStr (tsql_execute_query env query).1 "Blocked: " = true) ∧
    (validate_query tsqlDangerous query = none →
      (env.connectFail.isSome = true ∨
       (env.execFail tsqlTimeoutStmt).isSome = true ∨
       (env.execFail (tsql_enforce_limit query)).isSome = true ∨
       env.fetchFail.isSome = true ∨
       (env.fetchRows.isEmpty = false ∧ env.renderFail.isSome = true)) →
      startsWithStr (tsql_execute_query env query).1 "Internal error: " = true) :=
  ⟨(executeQuery_prefixes pgDangerous pg_enforce_limit pgTimeoutStmt env query).1,
   (executeQuery_prefixes pgDangerous pg_enforce_limit pgTimeoutStmt env query).2,
   (executeQuery_prefixes tsqlDangerous tsql_enforce_limit tsqlTimeoutStmt
      env query).1,
   (executeQuery_prefixes tsqlDangerous tsql_enforce_limit tsqlTimeoutStmt
      env query).2⟩

/-- Witness for the error-prefix theorem: a blocked query, a connection
failure and a row-rendering failure, each at a concrete environment. -/
theorem execute_query_error_prefixes_witness :
    startsWithStr (pg_execute_query env0 "DROP TABLE users;").1
      "Blocked: " = true ∧
    startsWithStr (pg_execute_query envConnFail "SELECT 1").1
      "Internal error: " = true ∧
    startsWithStr (pg_execute_query envRenderFail "SELECT 1").1
      "Internal error: " = true :=
  ⟨(execute_query_error_prefixes env0 "DROP TABLE users;").1 (by decide),
   (execute_query_error_prefixes envConnFail "SELECT 1").2.1 (by decide)
     (Or.inl (by decide)),
   (execute_query_error_prefixes envRenderFail "SELECT 1").2.1 (by decide)
     (Or.inr (Or.inr (Or.inr (Or.inr ⟨by decide, by decide⟩))))⟩

/-- Shape of an accepted run's trace: whenever a connection was opened, the
first action after connecting is the timeout statement, every later executed
statement is the normalized query, and (when the two texts differ) the timeout
statement is executed exactly once. -/
def TimeoutShape (tr : List Event) (tstmt q : String) : Prop :=
  Event.connect ∈ tr →
    ∃ rest, tr = Event.connect :: Event.exec tstmt :: rest ∧
      Event.connect ∉ rest ∧
      (∀ s, Event.exec s ∈ rest → s = q) ∧
      (q ≠ tstmt →
        (tr.filter fun e => e == Event.exec tstmt).length = 1)

/-- Count of the timeout statement in the trace of a run that failed while
issuing it. -/
theorem filter_exec_count4 (tstmt : String) :
    (([Event.connect, Event.exec tstmt, Event.closeCur, Event.closeConn]).filter
      (fun e => e == Event.exec tstmt)).length = 1 := by
  have h0 : (Event.connect == Event.exec tstmt) = false := by
    simp [beq_eq_false_iff_ne]
  have h1 : (Event.exec tstmt == Event.exec tstmt) = true := by simp
  have h2 : (Event.closeCur == Event.exec tstmt) = false := by
    simp [beq_eq_false_iff_ne]
  have h3 : (Event.closeConn == Event.exec tstmt) = false := by
    simp [beq_eq_false_iff_ne]
  simp [List.filter, h0, h1, h2, h3]

/-- Count of the timeout statement in the trace of a run that failed while
executing the query. -/
theorem filter_exec_count5 (tstmt q : String) (hne : q ≠ tstmt) :
    (([Event.connect, Event.exec tstmt, Event.exec q, Event.closeCur,
       Event.closeConn]).filter (fun e => e == Event.exec tstmt)).length = 1 := by
  have h0 : (Event.connect == Event.exec tstmt) = false := by
    simp [beq_eq_false_iff_ne]
  have h1 : (Event.exec tstmt == Event.exec tstmt) = true := by simp
  have h2 : (Event.closeCur == Event.exec tstmt) = false := by
    simp [beq_eq_false_iff_ne]
  have h3 : (Event.closeConn == Event.exec tstmt) = false := by
    simp [beq_eq_false_iff_ne]
  have h5 : (Event.exec q == Event.exec tstmt) = false := by
    simp [beq_eq_false_iff_ne, hne]
  simp [List.filter, h0, h1, h2, h3, h5]

/-- Count of the timeout statement in the trace of a run that reached the
fetch. -/
theorem filter_exec_count6 (tstmt q : String) (hne : q ≠ tstmt) :
    (([Event.connect, Event.exec tstmt, Event.exec q, Event.fetchAll,
       Event.closeCur, Event.closeConn]).filter
      (fun e => e == Event.exec tstmt)).length = 1 := by
  have h0 : (Event.connect == Event.exec tstmt) = false := by
    simp [beq_eq_false_iff_ne]
  have h1 : (Event.exec tstmt == Event.exec tstmt) = true := by simp
  have h2 : (Event.closeCur == Event.exec tstmt) = false := by
    simp [beq_eq_false_iff_ne]
  have h3 : (Event.closeConn == Event.exec tstmt) = false := by
    simp [beq_eq_false_iff_ne]
  have h4 : (Event.fetchAll == Event.exec tstmt) = false := by
    simp [beq_eq_false_iff_ne]
  have h5 : (Event.exec q == Event.exec tstmt) = false := by
    simp [beq_eq_false_iff_ne, hne]
  simp [List.filter, h0, h1, h2, h3, h4, h5]

/-- Every accepted run of the gateway satisfies the timeout-ordering shape. -/
theorem executeQuery_timeout_shape (ds : List String)
    (limiter : String → String) (tstmt : String) (env : Env) (query : String)
    (h : validate_query ds query = none) :
    TimeoutShape (executeQuery ds limiter tstmt env query).2 tstmt
      (limiter query) := by
  intro hconn
  cases hc : env.connectFail with
  | some e =>
    rw [show (executeQuery ds limiter tstmt env query).2 = [] from by
      simp [executeQuery, h, hc]] at hconn
    simp at hconn
  | none =>
    cases ht : env.execFail tstmt with
    | some e =>
      refine ⟨[Event.closeCur, Event.closeConn], ?_, by simp, ?_, ?_⟩
      · simp [executeQuery, h, hc, ht]
      · intro s hs
        simp at hs
      · intro _
        rw [show (executeQuery ds limiter tstmt env query).2 =
          [Event.connect, Event.exec tstmt, Event.closeCur, Event.closeConn]
          from by simp [executeQuery, h, hc, ht]]
        exact filter_exec_count4 tstmt
    | none =>
      cases hq : env.execFail (limiter query) with
      | some e =>
        refine ⟨[Event.exec (limiter query), Event.closeCur, Event.closeConn],
          ?_, by simp, ?_, ?_⟩
        · simp [executeQuery, h, hc, ht, hq]
        · intro s hs
          simp at hs
          rcases hs with hs | hs | hs <;> simp_all
        · intro hne
          rw [show (executeQuery ds limiter tstmt env query).2 =
            [Event.connect, Event.exec tstmt, Event.exec (limiter query),
             Event.closeCur, Event.closeConn]
            from by simp [executeQuery, h, hc, ht, hq]]
          exact filter_exec_count5 tstmt (limiter query) hne
      | none =>
        cases hf : env.fetchFail with
        | some e =>
          refine ⟨[Event.exec (limiter query), Event.fetchAll,
            Event.closeCur, Event.closeConn], ?_, by simp, ?_, ?_⟩
          · simp [executeQuery, h, hc, ht, hq, hf]
          · intro s hs
            simp at hs
            rcases hs with hs | hs | hs | hs <;> simp_all
          · intro hne
            rw [show (executeQuery ds limiter tstmt env query).2 =
              [Event.connect, Event.exec tstmt, Event.exec (limiter query),
               Event.fetchAll, Event.closeCur, Event.closeConn]
              from by simp [executeQuery, h, hc, ht, hq, hf]]
            exact filter_exec_count6 tstmt (limiter query) hne
        | none =>
          have htr : (executeQuery ds limiter tstmt env query).2 =
              [Event.connect, Event.exec tstmt, Event.exec (limiter query),
               Event.fetchAll, Event.closeCur, Event.closeConn] := by
            by_cases hrows : env.fetchRows.isEmpty
            · simp [executeQuery, h, hc, ht, hq, hf, hrows]
            · cases hr : env.renderFail with
              | some e => simp [executeQuery, h, hc, ht, hq, hf, hrows, hr]
              | none => simp [executeQuery, h, hc, ht, hq, hf, hrows, hr]
          refine ⟨[Event.exec (limiter query), Event.fetchAll,
            Event.closeCur, Event.closeConn], htr, by simp, ?_, ?_⟩
          · intro s hs
            simp at hs
            rcases hs with hs | hs | hs | hs <;> simp_all
          · intro hne
            rw [htr]
            exact filter_exec_count6 tstmt (limiter query) hne

/-- C6: on an accepted execute_query run, after acquiring a connection the
gateway's first executed statement is the dialect's timeout directive —
"SET statement_timeout = 3000" (3 seconds) on Postgres,
"SET LOCK_TIMEOUT 30000" (30 seconds) on T-SQL — it is executed exactly once,
and the user query is only ever executed after it. -/
theorem gateway_timeout_order (env : Env) (query : String) :
    (validate_query pgDangerous query = none →
      TimeoutShape (pg_execute_query env query).2 pgTimeoutStmt
        (pg_enforce_limit query)) ∧
    (validate_query tsqlDangerous query = none →
      TimeoutShape (tsql_execute_query env query).2 tsqlTimeoutStmt
        (tsql_enforce_limit query)) :=
  ⟨fun h => executeQuery_timeout_shape _ _ _ env query h,
   fun h => executeQuery_timeout_shape _ _ _ env query h⟩

/-- Witness for the timeout-ordering theorem on a concrete successful run. -/
theorem gateway_timeout_order_witness :
    (∃ rest, (pg_execute_query env0 "SELECT 1").2 =
        Event.connect :: Event.exec pgTimeoutStmt :: rest) ∧
    ((pg_execute_query env0 "SELECT 1").2.filter
        (fun e => e == Event.exec pgTimeoutStmt)).length = 1 := by
  rcases (gateway_timeout_order env0 "SELECT 1").1 (by decide) (by decide)
    with ⟨rest, h1, h2, h3, h4⟩
  exact ⟨⟨rest, h1⟩, h4 (by decide)⟩

/-- Strings with equal character data are equal. -/
theorem strExt {a b : String} (h : a.data = b.data) : a = b := by
  cases a
  cases b
  exact congrArg String.mk h

/-- Model of Python `t.split(".", 1)` restricted to inputs containing a dot:
the pair of the segment before the first dot and everything after it. -/
def splitFirstDot : List Char → List Char × List Char
  | [] => ([], [])
  | c :: cs =>
    if c == '.' then ([], cs)
    else (c :: (splitFirstDot cs).1, (splitFirstDot cs).2)

/-- When a dot occurs, `splitFirstDot` decomposes the list at the first dot. -/
theorem splitFirstDot_spec :
    ∀ l : List Char, hasSub ("." : String).data l = true →
      l = (splitFirstDot l).1 ++ '.' :: (splitFirstDot l).2 ∧
      '.' ∉ (splitFirstDot l).1 := by
  intro l
  induction l with
  | nil => intro h; simp [hasSub, takesLead] at h
  | cons c cs ih =>
    intro h
    by_cases hc : (c == '.') = true
    · have hc' : c = '.' := by simpa using hc
      constructor
      · simp [splitFirstDot, hc, hc']
      · simp [splitFirstDot, hc]
    · have hcs : hasSub ("." : String).data cs = true := by
        have hc2 : ('.' == c) = false := by
          simp only [beq_eq_false_iff_ne]
          intro he
          exact hc (by simp [he.symm])
        have hlead : takesLead ("." : String).data (c :: cs) = false := by
          simp only [show ("." : String).data = ['.'] from rfl, takesLead, hc2,
            Bool.false_and]
        simp only [hasSub, hlead, Bool.false_or] at h
        exact h
      rcases ih hcs with ⟨h1, h2⟩
      constructor
      · simp only [splitFirstDot, hc, Bool.false_eq_true, if_false]
        simpa using h1
      · simp only [splitFirstDot, hc, Bool.false_eq_true, if_false,
          List.mem_cons, not_or]
        exact ⟨fun he => hc (by simp [he.symm]), h2⟩

/-- `splitFirstDot` recovers the components of a dot-free head segment. -/
theorem splitFirstDot_prepend (pre post : List Char) (h : '.' ∉ pre) :
    splitFirstDot (pre ++ '.' :: post) = (pre, post) := by
  induction pre with
  | nil => simp [splitFirstDot]
  | cons c cs ih =>
    simp only [List.mem_cons, not_or] at h
    have hc : (c == '.') = false := by
      simp only [beq_eq_false_iff_ne]
      exact fun he => h.1 he.symm
    simp [splitFirstDot, hc, ih h.2]

/-- Embedding of the query construction of view_table (src/sqlserv.py lines
219-236): a dot-free table name is first qualified to the SalesLT schema when
the catalog lookup (modelled by the `lookup` oracle, standing for the
INFORMATION_SCHEMA count being positive) finds it; the final text brackets the
schema and name around the first dot, or the bare name. -/
def view_table_query (lookup : String → Bool) (table : String) : String :=
  let t := if !(pyInStr "." table) then
             (if lookup table then "SalesLT." ++ table else table)
           else table
  if pyInStr "." t then
    "SELECT TOP 10 * FROM [" ++ String.mk (splitFirstDot t.data).1 ++ "].[" ++
      String.mk (splitFirstDot t.data).2 ++ "]"
  else
    "SELECT TOP 10 * FROM [" ++ t ++ "]"

/-- Concatenation fact used to normalize the bracketed SalesLT query text. -/
theorem salesLT_bracket_eq (t : String) :
    "SELECT TOP 10 * FROM [" ++ "SalesLT" ++ "].[" ++ t ++ "]" =
      "SELECT TOP 10 * FROM [SalesLT].[" ++ t ++ "]" := by
  apply strExt
  show (("SELECT TOP 10 * FROM [" ++ "SalesLT" ++ "].[" : String)).data ++
      t.data ++ ("]" : String).data =
    ("SELECT TOP 10 * FROM [SalesLT].[" : String).data ++ t.data ++
      ("]" : String).data
  rw [show (("SELECT TOP 10 * FROM [" ++ "SalesLT" ++ "].[" : String)).data =
    ("SELECT TOP 10 * FROM [SalesLT].[" : String).data from by decide]

/-- C10: the query view_table executes always brackets its identifiers —
"SELECT TOP 10 * FROM [schema].[name]" splitting the argument at its first dot
when one occurs, "SELECT TOP 10 * FROM [table]" otherwise — and a dot-free
argument is silently qualified to the SalesLT schema exactly when the catalog
lookup finds it there. -/
theorem view_table_query_shape (lookup : String → Bool) (table : String) :
    (pyInStr "." table = true →
      ∃ pre post : List Char,
        table.data = pre ++ '.' :: post ∧ '.' ∉ pre ∧
        view_table_query lookup table =
          "SELECT TOP 10 * FROM [" ++ String.mk pre ++ "].[" ++
            String.mk post ++ "]") ∧
    (pyInStr "." table = false → lookup table = true →
      view_table_query lookup table =
        "SELECT TOP 10 * FROM [SalesLT].[" ++ table ++ "]") ∧
    (pyInStr "." table = false → lookup table = false →
      view_table_query lookup table =
        "SELECT TOP 10 * FROM [" ++ table ++ "]") := by
  refine ⟨?_, ?_, ?_⟩
  · intro hdot
    rcases splitFirstDot_spec table.data hdot with ⟨h1, h2⟩
    refine ⟨(splitFirstDot table.data).1, (splitFirstDot table.data).2,
      h1, h2, ?_⟩
    simp [view_table_query, hdot]
  · intro hdot hlook
    have hdata : (("SalesLT." ++ table : String)).data =
        ("SalesLT" : String).data ++ '.' :: table.data := by
      show ("SalesLT." : String).data ++ table.data =
        ("SalesLT" : String).data ++ '.' :: table.data
      rw [show ("SalesLT." : String).data =
            ("SalesLT" : String).data ++ ['.'] from by decide]
      simp
    have hdot2 : pyInStr "." ("SalesLT." ++ table) = true := by
      show hasSub ("." : String).data (("SalesLT." ++ table : String)).data = true
      rw [hdata]
      exact (hasSub_iff _ _).mpr ⟨("SalesLT" : String).data, table.data, by simp⟩
    have hsplit : splitFirstDot
        ('S' :: 'a' :: 'l' :: 'e' :: 's' :: 'L' :: 'T' :: '.' :: table.data) =
        (("SalesLT" : String).data, table.data) := by
      have h0 := splitFirstDot_prepend ("SalesLT" : String).data table.data
        (by decide)
      simpa using h0
    apply strExt
    simp [view_table_query, hdot, hlook, hdot2, hsplit]
  · intro hdot hlook
    simp [view_table_query, hdot, hlook]

/-- Witness for the view_table query-shape theorem on the three concrete
branches: a dotted argument, a dot-free argument found in the catalog, and a
dot-free argument not found. -/
theorem view_table_query_shape_witness :
    (∃ pre post : List Char,
      ("SalesLT.Customer" : String).data = pre ++ '.' :: post ∧ '.' ∉ pre ∧
      view_table_query (fun _ => false) "SalesLT.Customer" =
        "SELECT TOP 10 * FROM [" ++ String.mk pre ++ "].[" ++
          String.mk post ++ "]") ∧
    view_table_query (fun _ => true) "Customer" =
      "SELECT TOP 10 * FROM [SalesLT].[Customer]" ∧
    view_table_query (fun _ => false) "Customer" =
      "SELECT TOP 10 * FROM [Customer]" := by
  refine ⟨(view_table_query_shape (fun _ => false) "SalesLT.Customer").1
      (by decide), ?_, ?_⟩
  · have h := (view_table_query_shape (fun _ => true) "Customer").2.1
      (by decide) rfl
    rw [h]
    decide
  · have h := (view_table_query_shape (fun _ => false) "Customer").2.2
      (by decide) rfl
    rw [h]
    decide

end HarmanSql
